import Mathlib

/-!
Shallow embedding of the BankingStageErrorsTrackingSidecar pipeline.

The embedding follows the repository sources:
  - `src/postgres.rs`, `spawn_transaction_infos_saver`: the periodic
    eviction/flush job over the transaction index
    (`DashMap<String, BTreeMap<u64, TransactionInfo>>`), its selection test
    `slot > first_slot + 300`, removal of selected keys, flattening of the
    removed per-slot trees, batching with `chunks(8)`, and the per-batch
    save loop whose `.unwrap()` aborts the task on the first failing batch.
  - `src/postgres.rs`, `save_banking_transaction_results`: the early return
    on an empty input and the COPY/write/finish interaction with the sink.
  - `src/main.rs`, the delayed block consumer: blocks are stamped with
    `Instant::now() + 30s`, travel through a FIFO unbounded channel, and a
    single consumer sleeps until each stamp before processing; per-block
    transaction merging (`get_mut` + `add_transaction`, absent signatures
    skipped), the banking-stage error lookup, and the raw
    `slot.store(block.slot)` watermark write.

`TransactionInfo` records are treated as an abstract type `α` wherever the
code only moves them around without inspecting them.  Time is modelled in
whole seconds as `Nat`.
-/

namespace BankingStage

/-- A per-signature slot map, the Rust `BTreeMap<u64, TransactionInfo>`,
represented by its ascending-key iteration as an association list. -/
abbrev SlotMap (α : Type) := List (Nat × α)

/-- The transaction index in one tick's iteration order: the Rust
`DashMap<String, BTreeMap<u64, TransactionInfo>>` (keys are unique). -/
abbrev TxIndex (α : Type) := List (String × SlotMap α)

/-- Rust (`spawn_transaction_infos_saver`):
`let first_slot = slot_map.keys().next().cloned().unwrap_or_default();` —
the smallest key of the BTreeMap, i.e. the head of its ascending iteration,
defaulting to `0` for an empty map. -/
def first_slot {α : Type} (slot_map : SlotMap α) : Nat :=
  match slot_map with
  | [] => 0
  | (k, _) :: _ => k

/-- Rust: the selection test `slot > first_slot + 300` of the eviction loop,
where `slot` is the watermark read at the start of the tick. -/
def select_for_eviction {α : Type} (watermark : Nat) (slot_map : SlotMap α) : Bool :=
  decide (first_slot slot_map + 300 < watermark)

/-- Rust: the `txs_to_store` vector — the keys of the entries passing the
selection test, in iteration order. -/
def txs_to_store {α : Type} (watermark : Nat) (index : TxIndex α) : List String :=
  (index.filter (fun e => select_for_eviction watermark e.2)).map Prod.fst

/-- Removal of a set of keys from the index (the effect of calling
`map_of_transaction.remove(key)` for every key of the list). -/
def remove_keys {α : Type} (index : TxIndex α) (keys : List String) : TxIndex α :=
  index.filter (fun e => !keys.contains e.1)

/-- The index as the tick leaves it: every selected key removed. -/
def tick_new_index {α : Type} (watermark : Nat) (index : TxIndex α) : TxIndex α :=
  remove_keys index (txs_to_store watermark index)

/-- Rust: `txs_to_store.iter().filter_map(|key| map_of_transaction.remove(key))`
— each selected key is removed and yields its slot map; on the map the
removal of key `k` returns the unique entry of `k`, i.e. a lookup. -/
def tick_removed {α : Type} (watermark : Nat) (index : TxIndex α) : List (SlotMap α) :=
  (txs_to_store watermark index).filterMap (fun key => index.lookup key)

/-- Rust: the `data` vector — the values of every removed tree, flattened
(`.map(|(_, tree)| tree.iter().map(|(_, info)| info).cloned().collect_vec()).flatten()`). -/
def tick_data {α : Type} (watermark : Nat) (index : TxIndex α) : List α :=
  ((tick_removed watermark index).map (fun tree => tree.map Prod.snd)).flatten

/-- Rust: `data.chunks(8)` with the reference batch size 8: splits a list
into consecutive chunks of eight, the last chunk possibly shorter. -/
def chunks8 {α : Type} : List α → List (List α)
  | [] => []
  | x :: xs => (x :: xs.take 7) :: chunks8 (xs.drop 7)
termination_by l => l.length
decreasing_by simp [List.length_drop]; omega

/-- The persistence batches of one eviction tick. -/
def tick_batches {α : Type} (watermark : Nat) (index : TxIndex α) : List (List α) :=
  chunks8 (tick_data watermark index)

/-- The chunk lengths produced by `chunks8` on a list of length `n`. -/
def chunk_sizes : Nat → List Nat
  | 0 => []
  | n + 1 => min (n + 1) 8 :: chunk_sizes (n + 1 - 8)
termination_by n => n
decreasing_by omega

/-- Rust: the per-batch save loop
`for batch in batches { session.save_banking_transaction_results(batch.to_vec()).await.unwrap(); }`.
`ok` is the sink's per-batch outcome; `.unwrap()` panics on the first failing
batch and the loop (indeed the whole task) aborts, so the attempted batches
are every batch up to and including the first failure. -/
def run_batches {α : Type} (ok : List α → Bool) : List (List α) → List (List α)
  | [] => []
  | b :: bs => if ok b then b :: run_batches ok bs else [b]

/-- One whole eviction tick against a sink with per-batch outcome `ok`:
the index it leaves behind (removal happens before any persistence and is
never undone) and the batches the save loop attempts. -/
def tick_run {α : Type} (ok : List α → Bool) (watermark : Nat) (index : TxIndex α) :
    TxIndex α × List (List α) :=
  (tick_new_index watermark index, run_batches ok (tick_batches watermark index))

/-- One interaction of `save_banking_transaction_results` with the storage
sink: issuing the COPY statement, writing one row, finishing the writer. -/
inductive SinkOp : Type where
  | copyIn : SinkOp
  | writeRow : SinkOp
  | finish : SinkOp
deriving DecidableEq, Repr

/-- Rust (`save_banking_transaction_results`): returns `Ok(())` at once on an
empty input; otherwise issues the COPY statement, writes one row per record
and finishes the writer.  The result is the returned value paired with the
operations issued to the sink. -/
def save_banking_transaction_results {α : Type} (txs : List α) :
    Except Unit Unit × List SinkOp :=
  if txs.isEmpty then (Except.ok (), [])
  else (Except.ok (), SinkOp.copyIn :: (txs.map (fun _ => SinkOp.writeRow)) ++ [SinkOp.finish])

/-- The fixed hold duration of the delay queue, in seconds (`main.rs`:
`Instant::now() + Duration::from_secs(30)`). -/
def hold_duration : Nat := 30

/-- Rust (`main.rs`, the `recv_block` consumer): the single consumer pulls
`(wait_until, block)` pairs from the FIFO channel in insertion order and,
for each, sleeps until `wait_until = arrival + hold_duration` before
processing.  Input: `(arrival time, block)` in arrival order; `prev` is the
time the previous item finished.  Output: `(process time, block)` in
processing order. -/
def consume_blocks {α : Type} (prev : Nat) : List (Nat × α) → List (Nat × α)
  | [] => []
  | (arr, b) :: rest =>
    (max prev (arr + hold_duration), b) :: consume_blocks (max prev (arr + hold_duration)) rest

/-- Rust (`main.rs`): per-block transaction merging.  For each transaction of
the block: a missing `transaction.transaction` payload is skipped
(modelled as `none`); otherwise, when its signature has an entry in the
index, `info.add_transaction(&transaction, block.slot)` updates that entry
in place (the update function `upd` is abstract — `add_transaction` lives in
`transaction_info.rs`); a signature with no entry is skipped. -/
def process_block_txs {α : Type} (upd : α → Nat → α) (block_slot : Nat) :
    List (Option String) → List (String × α) → List (String × α)
  | [], index => index
  | none :: rest, index => process_block_txs upd block_slot rest index
  | some sig :: rest, index =>
      process_block_txs upd block_slot rest
        (index.map (fun e => if e.1 = sig then (e.1, upd e.2 block_slot) else e))

/-- Rust (`main.rs`): `slot_by_error_task.get(&block.slot).map(|x| *x.value() as i64)` —
the banking-stage error count handed to `BlockInfo::new`, `none` when the
error tally has no entry for the block's slot. -/
def banking_stage_error_count (slot_by_errors : List (Nat × Nat)) (slot : Nat) : Option Int :=
  (slot_by_errors.lookup slot).map (fun c => (c : Int))

/-- Modelled from the spec: `BlockInfo` is defined in `block_info.rs`, which
is absent from the sources.  Fields follow the spec's block-record schema
(`banking_stage_errors` is a nullable int64) and the uses in `main.rs`
(`block_info.banking_stage_errors.unwrap_or(0)`, the metric subtraction
`processed_transactions - successful_transactions`). -/
structure BlockInfo : Type where
  slot : Nat
  banking_stage_errors : Option Int
  processed_transactions : Int
  successful_transactions : Int
deriving DecidableEq, Repr

/-- Modelled from the spec: `BlockInfo::new(&block, banking_stage_error_count)`
(in the missing `block_info.rs`) stores the optional banking-stage error
count it is given unchanged — per the spec the count is "copied from the
Error Tally at processing time", the persisted column is nullable, and
scenario B calls the resulting field "absent/zero". -/
def BlockInfo.new (slot : Nat) (processed successful : Int)
    (err_count : Option Int) : BlockInfo :=
  ⟨slot, err_count, processed, successful⟩

/-- Rust (`main.rs`):
`BANKING_STAGE_ERROR_COUNT.add(block_info.banking_stage_errors.unwrap_or(0))` —
the amount contributed to the cumulative error metric by one block. -/
def banking_stage_error_metric (bi : BlockInfo) : Int :=
  bi.banking_stage_errors.getD 0

/-- Rust (`main.rs`): `slot.store(block.slot, Ordering::Relaxed)` — the
watermark write is a raw overwrite of the current value with the processed
block's slot. -/
def watermark_store (_current new : Nat) : Nat :=
  new

/-- The successive values of the slot watermark (initially
`AtomicU64::new(0)`) over a sequence of processed block slots. -/
def watermark_history (slots : List Nat) : List Nat :=
  slots.scanl watermark_store 0

/-- Signature literal used by concrete instances. -/
def sigA : String := "a"

/-- Signature literal used by concrete instances. -/
def sigB : String := "b"

/-- Signature literal used by concrete instances. -/
def sigX : String := "x"

/-- Concrete index fixture: a signature last notified at slot 650 and one at
slot 700, with one record each. -/
def idx2 : TxIndex Nat := [(sigA, [(650, 0)]), (sigB, [(700, 1)])]

/-- Concrete index fixture: one signature holding twenty records. -/
def idx20 : TxIndex Nat := [(sigA, (List.range 20).map (fun i => (i, i)))]

end BankingStage

namespace BankingStage

/-! ### Shared lemmas -/

/-- Concatenating the chunks of a list gives the list back. -/
theorem chunks8_flatten {α : Type} : ∀ (l : List α), (chunks8 l).flatten = l
  | [] => by simp [chunks8]
  | x :: xs => by
    rw [chunks8]
    simp only [List.flatten_cons]
    rw [chunks8_flatten (xs.drop 7)]
    simp
termination_by l => l.length
decreasing_by simp [List.length_drop]; omega

/-- Every chunk produced by `chunks8` has at most eight elements. -/
theorem chunks8_length_le {α : Type} : ∀ (l : List α), ∀ c ∈ chunks8 l, c.length ≤ 8
  | [] => by simp [chunks8]
  | x :: xs => by
    intro c hc
    rw [chunks8] at hc
    rcases List.mem_cons.mp hc with h | h
    · subst h
      simp [List.length_take]
    · exact chunks8_length_le (xs.drop 7) c h
termination_by l => l.length
decreasing_by simp [List.length_drop]; omega

/-- The chunk lengths of `chunks8` depend only on the input length. -/
theorem chunks8_map_length {α : Type} : ∀ (l : List α),
    (chunks8 l).map List.length = chunk_sizes l.length
  | [] => by simp [chunks8, chunk_sizes]
  | x :: xs => by
    rw [chunks8]
    simp only [List.map_cons, List.length_cons]
    rw [chunks8_map_length (xs.drop 7)]
    rw [chunk_sizes]
    simp [List.length_take, List.length_drop]
    omega
termination_by l => l.length
decreasing_by simp [List.length_drop]; omega

/-- On an association list with pairwise-distinct keys, looking up the key of
a member entry returns that entry's value. -/
theorem lookup_eq_some_of_mem {β : Type} : ∀ {l : List (String × β)} {e : String × β},
    (l.map Prod.fst).Nodup → e ∈ l → l.lookup e.1 = some e.2 := by
  intro l
  induction l with
  | nil => intro e _ he; cases he
  | cons hd tl ih =>
    intro e hnd he
    simp only [List.map_cons, List.nodup_cons] at hnd
    rcases List.mem_cons.mp he with h | h
    · subst h
      simp [List.lookup]
    · have hne : e.1 ≠ hd.1 := by
        intro hcontra
        have hmem : e.1 ∈ tl.map Prod.fst := List.mem_map_of_mem Prod.fst h
        rw [hcontra] at hmem
        exact hnd.1 hmem
      have hbeq : (e.1 == hd.1) = false := beq_eq_false_iff_ne.mpr hne
      simp only [List.lookup, hbeq]
      exact ih hnd.2 h

/-- On an association list with pairwise-distinct keys, filtering for the key
of a member entry keeps exactly that entry. -/
theorem filter_key_eq {β : Type} : ∀ {l : List (String × β)} {k : String} {m : β},
    (l.map Prod.fst).Nodup → (k, m) ∈ l →
    l.filter (fun e => e.1 == k) = [(k, m)] := by
  intro l
  induction l with
  | nil => intro k m _ hm; cases hm
  | cons hd tl ih =>
    intro k m hnd hm
    simp only [List.map_cons, List.nodup_cons] at hnd
    rcases List.mem_cons.mp hm with h | h
    · have hk : hd = (k, m) := h.symm
      subst hk
      simp only [List.filter_cons, beq_self_eq_true, if_pos]
      congr 1
      rw [List.filter_eq_nil_iff]
      intro e he
      simp only [beq_iff_eq]
      intro hek
      have hmem : e.1 ∈ tl.map Prod.fst := List.mem_map_of_mem Prod.fst he
      rw [hek] at hmem
      exact hnd.1 hmem
    · have hk : hd.1 ≠ k := by
        intro hcontra
        have hmem : (k, m).1 ∈ tl.map Prod.fst := List.mem_map_of_mem Prod.fst h
        rw [← hcontra] at hmem
        exact hnd.1 hmem
      have hbeq : (hd.1 == k) = false := beq_eq_false_iff_ne.mpr hk
      rw [List.filter_cons]
      simp only [hbeq, if_neg, Bool.false_eq_true, not_false_eq_true]
      exact ih hnd.2 h

/-- Looking the keys of a sublist back up in the full list recovers the
sublist's values, provided every lookup succeeds on its own entry. -/
theorem filterMap_lookup_of_forall {β : Type} (l : List (String × β)) :
    ∀ (sub : List (String × β)), (∀ e ∈ sub, l.lookup e.1 = some e.2) →
      (sub.map Prod.fst).filterMap (fun key => l.lookup key) = sub.map Prod.snd := by
  intro sub
  induction sub with
  | nil => intro _; rfl
  | cons e tl ih =>
    intro h
    simp only [List.map_cons, List.filterMap_cons]
    rw [h e (List.mem_cons_self e tl)]
    rw [ih (fun x hx => h x (List.mem_cons_of_mem e hx))]

/-- On a duplicate-free index the removal loop yields exactly the selected
entries' slot maps, in iteration order. -/
theorem tick_removed_eq {α : Type} (w : Nat) (index : TxIndex α)
    (hnd : (index.map Prod.fst).Nodup) :
    tick_removed w index =
      (index.filter (fun e => select_for_eviction w e.2)).map Prod.snd := by
  unfold tick_removed txs_to_store
  apply filterMap_lookup_of_forall
  intro e he
  exact lookup_eq_some_of_mem hnd (List.mem_of_mem_filter he)

/-- The consumer's process times are nondecreasing, starting from the time
the previous item finished. -/
theorem consume_blocks_chain_aux {α : Type} : ∀ (prev : Nat) (q : List (Nat × α)),
    List.Chain' (fun s t => s ≤ t) (prev :: (consume_blocks prev q).map Prod.fst)
  | _, [] => by simp [consume_blocks]
  | prev, (a, b) :: rest => by
    simp only [consume_blocks, List.map_cons]
    rw [List.chain'_cons]
    exact ⟨le_max_left _ _, consume_blocks_chain_aux _ rest⟩

/-- The consumer emits exactly the blocks it received, in insertion order. -/
theorem consume_blocks_map_snd {α : Type} : ∀ (prev : Nat) (q : List (Nat × α)),
    (consume_blocks prev q).map Prod.snd = q.map Prod.snd
  | _, [] => rfl
  | _prev, (_a, _b) :: rest => by
    simp only [consume_blocks, List.map_cons]
    rw [consume_blocks_map_snd _ rest]

/-- Pointwise: each processed item is the corresponding arrived block and its
process time is at least the block's release time. -/
theorem consume_blocks_forall₂ {α : Type} : ∀ (prev : Nat) (q : List (Nat × α)),
    List.Forall₂ (fun p a => p.2 = a.2 ∧ a.1 + hold_duration ≤ p.1)
      (consume_blocks prev q) q
  | _, [] => List.Forall₂.nil
  | _prev, (_a, _b) :: rest =>
    List.Forall₂.cons ⟨rfl, le_max_right _ _⟩ (consume_blocks_forall₂ _ rest)

/-- The watermark history under raw overwrites is the initial zero followed
by the processed slots themselves. -/
theorem watermark_history_eq (slots : List Nat) : watermark_history slots = 0 :: slots := by
  unfold watermark_history
  suffices h : ∀ (b : Nat) (l : List Nat), l.scanl watermark_store b = b :: l by
    exact h 0 slots
  intro b l
  induction l generalizing b with
  | nil => rfl
  | cons a tl ih =>
    rw [List.scanl_cons]
    simp only [watermark_store, List.cons_append, List.nil_append]
    rw [ih a]

end BankingStage

namespace BankingStage

/-! ### Claims -/

/-- C2: every block event is processed exactly once, no earlier than the
30-second hold duration after its arrival, and in FIFO order of arrival,
regardless of slot numbers or release deadlines.  `consume_blocks` pairs
each arrived block with its process time: the emitted blocks are exactly
the arrived blocks in arrival order (each appears exactly once, at its
arrival position), each process time is at least arrival + `hold_duration`,
and the process times are nondecreasing, so processing really happens in
that FIFO order.  The blocks are abstract (`α`), so neither slot numbers
nor deadlines influence the order. -/
theorem c2_delay_queue_fifo {α : Type} (prev : Nat) (arrivals : List (Nat × α)) :
    (consume_blocks prev arrivals).map Prod.snd = arrivals.map Prod.snd ∧
    List.Forall₂ (fun p a => p.2 = a.2 ∧ a.1 + hold_duration ≤ p.1)
      (consume_blocks prev arrivals) arrivals ∧
    List.Chain' (fun s t => s ≤ t) ((consume_blocks prev arrivals).map Prod.fst) := by
  refine ⟨consume_blocks_map_snd prev arrivals, consume_blocks_forall₂ prev arrivals, ?_⟩
  have h := consume_blocks_chain_aux prev arrivals
  exact h.tail

/-- C3 counterexample: the claim says that a block transaction whose
signature has no index entry gets a minimal entry created; in the code
(`main.rs`, `if let Some(mut info) = map_of_infos_task.get_mut(...)`) such a
transaction is skipped: processing a block with one transaction of signature
`sigA` against the empty index leaves the index empty and `sigA` unresolved. -/
theorem c3_missing_entry_counterexample :
    process_block_txs (fun a _ => a) 100 [some sigA] ([] : List (String × Nat)) = [] ∧
    (process_block_txs (fun a _ => a) 100 [some sigA]
      ([] : List (String × Nat))).lookup sigA = none := ⟨rfl, rfl⟩

/-- C3 amended: when the Block Processor handles a block containing a
transaction whose signature has no entry in the Transaction Index, no entry
is created — the transaction is skipped and the index's key set is unchanged
by block processing (existing entries are only updated in place). -/
theorem c3_no_entry_created {α : Type} (upd : α → Nat → α) (slot : Nat) :
    ∀ (txs : List (Option String)) (index : List (String × α)),
      (process_block_txs upd slot txs index).map Prod.fst = index.map Prod.fst := by
  intro txs
  induction txs with
  | nil => intro index; rfl
  | cons otx rest ih =>
    intro index
    cases otx with
    | none => exact ih index
    | some sig =>
      rw [process_block_txs]
      rw [ih]
      rw [List.map_map]
      apply List.map_congr_left
      intro e _
      simp only [Function.comp_apply]
      rw [apply_ite Prod.fst]
      simp

/-- C4 counterexample: for a processed block whose slot has no Error Tally
entry, the derived `BlockInfo`'s banking-stage error count is not zero but
absent (`none`, persisted as NULL): the claim's "the count is zero" fails at
slot 100 with an empty tally. -/
theorem c4_absent_tally_counterexample :
    (BlockInfo.new 100 2 1 (banking_stage_error_count [] 100)).banking_stage_errors = none ∧
    (BlockInfo.new 100 2 1 (banking_stage_error_count [] 100)).banking_stage_errors ≠
      some 0 := by
  constructor
  · rfl
  · simp [BlockInfo.new, banking_stage_error_count]

/-- C4 amended: for every processed block whose slot has no entry in the
Error Tally at processing time, the derived `BlockInfo`'s banking-stage
error count is absent (`none`, persisted as NULL), and the metrics path
treats the absent count as zero (`unwrap_or(0)`). -/
theorem c4_absent_tally_defaults (tally : List (Nat × Nat)) (slot : Nat)
    (processed successful : Int) (h : tally.lookup slot = none) :
    (BlockInfo.new slot processed successful
        (banking_stage_error_count tally slot)).banking_stage_errors = none ∧
    banking_stage_error_metric (BlockInfo.new slot processed successful
        (banking_stage_error_count tally slot)) = 0 := by
  simp [BlockInfo.new, banking_stage_error_count, banking_stage_error_metric, h]

/-- C4 witness: the amended statement at slot 100 with an empty tally. -/
theorem c4_absent_tally_defaults_witness :
    (BlockInfo.new 100 2 1
        (banking_stage_error_count [] 100)).banking_stage_errors = none ∧
    banking_stage_error_metric (BlockInfo.new 100 2 1
        (banking_stage_error_count [] 100)) = 0 :=
  c4_absent_tally_defaults [] 100 2 1 rfl

/-- C5 counterexample: with a sink that fails every batch, a tick with two
batches attempts only the first one — the `.unwrap()` in the save loop
aborts the task at the first failure, so the second batch is never
attempted, contradicting the claim that every subsequent batch of the same
tick is still attempted. -/
theorem c5_batch_failure_counterexample :
    run_batches (fun _ => false) [[(0 : Nat)], [1]] = [[0]] ∧
    [(1 : Nat)] ∉ run_batches (fun _ => false) [[(0 : Nat)], [1]] := by
  constructor
  · rfl
  · decide

/-- C5 amended: within one eviction tick, the save loop attempts batches in
order only up to and including the first failing batch (the `.unwrap()`
panic aborts the loop there); the index left by the tick is computed by the
removal phase before any persistence and does not depend on sink outcomes,
so a failed batch's entries are not re-inserted. -/
theorem c5_batch_failure_aborts {α : Type} (ok : List α → Bool) (bs : List (List α))
    (w : Nat) (index : TxIndex α) :
    run_batches ok bs = bs.takeWhile ok ++ (bs.dropWhile ok).take 1 ∧
    (tick_run ok w index).1 = (tick_run (fun _ => true) w index).1 := by
  refine ⟨?_, rfl⟩
  induction bs with
  | nil => rfl
  | cons b bs ih =>
    cases hok : ok b with
    | true => simp [run_batches, List.takeWhile_cons, List.dropWhile_cons, hok, ih]
    | false => simp [run_batches, List.takeWhile_cons, List.dropWhile_cons, hok]

/-- C6 counterexample: with watermark 1000 and lag window 300, an entry whose
first notification slot is 650 is not retained: the selection test
`slot > first_slot + 300` holds (1000 > 950), and the tick removes the
entry from the index. -/
theorem c6_scenario_counterexample :
    select_for_eviction 1000 [((650 : Nat), (0 : Nat))] = true ∧
    tick_new_index 1000 [(sigA, [((650 : Nat), (0 : Nat))])] = [] := by
  constructor
  · decide
  · decide

/-- C6 amended: with watermark 1000 and lag window 300, the eviction
selection evicts an entry whose first notification slot is 650 and evicts
an entry whose first notification slot is 699; an entry is retained only
from first notification slot 700 on (1000 is not greater than 700 + 300). -/
theorem c6_scenario_boundary :
    select_for_eviction 1000 [((650 : Nat), (0 : Nat))] = true ∧
    select_for_eviction 1000 [((699 : Nat), (0 : Nat))] = true ∧
    select_for_eviction 1000 [((700 : Nat), (0 : Nat))] = false := by
  decide

/-- C8: every persistence batch of an eviction tick has at most 8 records,
and a tick whose evicted entries yield 20 records produces exactly the
batch sizes 8, 8, 4, in that order. -/
theorem c8_batch_sizes {α : Type} (w : Nat) (index : TxIndex α) :
    (∀ b ∈ tick_batches w index, b.length ≤ 8) ∧
    ((tick_data w index).length = 20 →
      (tick_batches w index).map List.length = [8, 8, 4]) := by
  constructor
  · exact chunks8_length_le (tick_data w index)
  · intro h
    unfold tick_batches
    rw [chunks8_map_length, h]
    rw [show (20 : Nat) = 19 + 1 from rfl, chunk_sizes]
    norm_num
    rw [show (12 : Nat) = 11 + 1 from rfl, chunk_sizes]
    norm_num
    rw [show (4 : Nat) = 3 + 1 from rfl, chunk_sizes]
    norm_num
    rw [chunk_sizes]

/-- C8 witness: the twenty-record index yields batches of sizes 8, 8, 4. -/
theorem c8_batch_sizes_witness :
    (tick_batches 1000 idx20).map List.length = [8, 8, 4] :=
  (c8_batch_sizes 1000 idx20).2 (by decide)

/-- C9: `save_banking_transaction_results` called with an empty list of
transaction records returns `Ok(())` without issuing any operation to the
storage sink. -/
theorem c9_empty_save {α : Type} :
    save_banking_transaction_results ([] : List α) = (Except.ok (), ([] : List SinkOp)) :=
  rfl

/-- C10: an index entry whose per-slot map is empty has first slot 0 (the
`unwrap_or_default`), so it is selected exactly on ticks whose watermark
exceeds 300, and its removal contributes zero records to the persisted data
of the tick. -/
theorem c10_empty_slot_map {α : Type} (w : Nat) (k : String) :
    (select_for_eviction w ([] : SlotMap α) = true ↔ 300 < w) ∧
    (300 < w →
      tick_new_index w [(k, ([] : SlotMap α))] = [] ∧
      tick_data w [(k, ([] : SlotMap α))] = []) := by
  have hfs : first_slot ([] : SlotMap α) = 0 := rfl
  constructor
  · simp [select_for_eviction, hfs]
  · intro h
    have hsel : select_for_eviction w ([] : SlotMap α) = true := by
      simp [select_for_eviction, hfs]
      omega
    constructor
    · simp [tick_new_index, remove_keys, txs_to_store, hsel, List.filter_cons]
    · simp [tick_data, tick_removed, txs_to_store, hsel, List.filter_cons, List.lookup]

/-- C10 witness: at watermark 301 the empty-map entry is removed and
contributes no records. -/
theorem c10_empty_slot_map_witness :
    tick_new_index 301 [(sigX, ([] : SlotMap Nat))] = [] ∧
    tick_data 301 [(sigX, ([] : SlotMap Nat))] = [] :=
  (c10_empty_slot_map 301 sigX).2 (by decide)

end BankingStage

namespace BankingStage

/-- C7 counterexample: the watermark write in `main.rs` is
`slot.store(block.slot)`, a raw overwrite, not a max: processing blocks with
slots 10 then 5 leaves the watermark at 5 after it held 10, so a write can
leave the value below one it held before. -/
theorem c7_watermark_counterexample :
    watermark_history [10, 5] = [0, 10, 5] ∧
    (watermark_history [10, 5]).getD 2 0 < (watermark_history [10, 5]).getD 1 0 := by
  constructor
  · rfl
  · decide

/-- C7 amended: the watermark is set to each processed block's slot by a raw
overwrite, so it is monotonically nondecreasing exactly when blocks are
processed in nondecreasing slot order; under that ordering, the sequence of
values the watermark takes is nondecreasing. -/
theorem c7_watermark_monotone_if_ordered (slots : List Nat)
    (h : slots.Chain' (fun s t => s ≤ t)) :
    (watermark_history slots).Chain' (fun s t => s ≤ t) := by
  rw [watermark_history_eq]
  rw [List.chain'_cons']
  exact ⟨fun y _ => Nat.zero_le y, h⟩

/-- C7 witness: the amended statement for the in-order slot sequence 3, 5. -/
theorem c7_watermark_monotone_witness :
    (watermark_history [3, 5]).Chain' (fun s t => s ≤ t) :=
  c7_watermark_monotone_if_ordered [3, 5]
    (List.chain'_cons.mpr ⟨by simp, List.chain'_singleton 5⟩)

/-- C1: on a tick that reads watermark `w`, an index entry is removed if and
only if `w - first_slot > 300` (the lag window), where `first_slot` is the
entry's first notification slot (the smallest key of its per-slot map); the
records persisted by the tick's batches are exactly the selected entries'
records, each contributed exactly once (the flattened batches equal the
concatenation of the selected entries' record lists, and a selected key
corresponds to exactly one selected entry). -/
theorem c1_eviction_tick {α : Type} (w : Nat) (index : TxIndex α)
    (k : String) (m : SlotMap α)
    (hnd : (index.map Prod.fst).Nodup) (hmem : (k, m) ∈ index) :
    ((k ∉ (tick_new_index w index).map Prod.fst) ↔ 300 < w - first_slot m) ∧
    ((tick_batches w index).flatten =
      ((index.filter (fun e => select_for_eviction w e.2)).map
        (fun e => e.2.map Prod.snd)).flatten) ∧
    (300 < w - first_slot m →
      (index.filter (fun e => select_for_eviction w e.2)).countP
        (fun e => e.1 == k) = 1) := by
  have hsel_iff : select_for_eviction w m = true ↔ 300 < w - first_slot m := by
    simp only [select_for_eviction, decide_eq_true_eq]
    omega
  have hkey : ∀ e ∈ index, e.1 = k → e = (k, m) := by
    intro e he hek
    have hf : e ∈ index.filter (fun x => x.1 == k) := by
      rw [List.mem_filter]
      exact ⟨he, by simp [hek]⟩
    rw [filter_key_eq hnd hmem] at hf
    simpa using hf
  have htxs : k ∈ txs_to_store w index ↔ select_for_eviction w m = true := by
    unfold txs_to_store
    constructor
    · intro hk
      rcases List.mem_map.mp hk with ⟨e, hef, hek⟩
      rcases List.mem_filter.mp hef with ⟨hei, hes⟩
      have he := hkey e hei hek
      rw [he] at hes
      exact hes
    · intro hs
      exact List.mem_map.mpr ⟨(k, m), List.mem_filter.mpr ⟨hmem, hs⟩, rfl⟩
  have hnew : k ∈ (tick_new_index w index).map Prod.fst ↔
      ¬ select_for_eviction w m = true := by
    unfold tick_new_index remove_keys
    constructor
    · intro hk
      rcases List.mem_map.mp hk with ⟨e, hef, hek⟩
      rcases List.mem_filter.mp hef with ⟨hei, hec⟩
      have he := hkey e hei hek
      rw [he] at hec
      intro hs
      have hkin : k ∈ txs_to_store w index := htxs.mpr hs
      simp only [Bool.not_eq_eq_eq_not, Bool.not_true] at hec
      rw [List.contains_eq_any_beq] at hec
      simp only [List.any_eq_false, beq_iff_eq] at hec
      exact hec k hkin rfl
    · intro hns
      apply List.mem_map.mpr
      refine ⟨(k, m), List.mem_filter.mpr ⟨hmem, ?_⟩, rfl⟩
      have hnotin : k ∉ txs_to_store w index := fun hk => hns (htxs.mp hk)
      simp only [Bool.not_eq_eq_eq_not, Bool.not_true, List.contains_eq_any_beq]
      simp only [List.any_eq_false, beq_iff_eq]
      intro x hx hxk
      exact hnotin (hxk ▸ hx)
  refine ⟨?_, ?_, ?_⟩
  · rw [← hsel_iff]
    constructor
    · intro hknot
      by_contra hns
      exact hknot (hnew.mpr (by simp [hns]))
    · intro hs hk
      exact (hnew.mp hk) hs
  · unfold tick_batches
    rw [chunks8_flatten]
    unfold tick_data
    rw [tick_removed_eq w index hnd, List.map_map]
    rfl
  · intro h300
    have hs : select_for_eviction w m = true := hsel_iff.mpr h300
    rw [List.countP_eq_length_filter, List.filter_filter]
    have hcomm : index.filter (fun a => (a.1 == k) && select_for_eviction w a.2)
        = index.filter (fun a => select_for_eviction w a.2 && (a.1 == k)) := by
      apply List.filter_congr
      intro a _
      exact Bool.and_comm _ _
    rw [hcomm, ← List.filter_filter, filter_key_eq hnd hmem]
    simp [hs]

/-- C1 witness: the removal criterion, the batch contents and the uniqueness
count, at watermark 1000 on the two-entry index. -/
theorem c1_eviction_tick_witness :
    ((sigA ∉ (tick_new_index 1000 idx2).map Prod.fst) ↔
      300 < 1000 - first_slot [((650 : Nat), (0 : Nat))]) ∧
    ((tick_batches 1000 idx2).flatten =
      ((idx2.filter (fun e => select_for_eviction 1000 e.2)).map
        (fun e => e.2.map Prod.snd)).flatten) ∧
    ((idx2.filter (fun e => select_for_eviction 1000 e.2)).countP
      (fun e => e.1 == sigA) = 1) :=
  have h := c1_eviction_tick 1000 idx2 sigA [(650, 0)] (by decide) (by decide)
  ⟨h.1, h.2.1, h.2.2 (by decide)⟩

end BankingStage
